import Mathlib

/-!
Shallow embedding of `core/primitives/src/offchain.rs` (Substrate offchain
worker primitives): the HTTP request status taxonomy and its `u16` wire
parsing, the saturating `Timestamp`/`Duration` millisecond arithmetic, the
`Externalities` capability interface and its delegating `Box` proxy.

Machine integers are modelled as `Nat` with explicit saturation at the
`u64` maximum where the source uses `saturating_add`/`saturating_sub`.
-/

/-- Maximum value of a Rust `u64`. -/
def U64_MAX : Nat := 2 ^ 64 - 1

/-- Rust `u64::saturating_add`: the exact sum when it fits in 64 bits,
otherwise clamped to `u64::MAX`. -/
def u64SaturatingAdd (a b : Nat) : Nat :=
  if a + b ≤ U64_MAX then a + b else U64_MAX

/-- Rust `u64::saturating_sub`: the exact difference when non-negative,
otherwise clamped to `0`. -/
def u64SaturatingSub (a b : Nat) : Nat :=
  if b ≤ a then a - b else 0

/-- `HttpRequestId(pub u16)`: opaque id for offchain http requests. -/
structure HttpRequestId where
  id : Nat
deriving DecidableEq, Repr

/-- `enum HttpRequestStatus`: status of an HTTP request. -/
inductive HttpRequestStatus where
  /-- Deadline was reached while we waited for this request to finish. -/
  | DeadlineReached
  /-- Request timed out. -/
  | Timeout
  /-- Request status of this ID is not known. -/
  | Unknown
  /-- The request is finished with the given status code. -/
  | Finished (code : Nat)
deriving DecidableEq, Repr

/-- `HttpRequestStatus::from_u16`: parse a raw `u16` as a request status.
The source matches `0`, `10`, `20`, the inclusive range `100...999`, and
rejects everything else. -/
def HttpRequestStatus.from_u16 (status : Nat) : Option HttpRequestStatus :=
  if status = 0 then some HttpRequestStatus.Unknown
  else if status = 10 then some HttpRequestStatus.DeadlineReached
  else if status = 20 then some HttpRequestStatus.Timeout
  else if 100 ≤ status ∧ status ≤ 999 then some (HttpRequestStatus.Finished status)
  else none

/-- `Timestamp(u64)`: opaque timestamp, milliseconds since the UNIX epoch. -/
structure Timestamp where
  millis : Nat
deriving DecidableEq, Repr

/-- `Duration(u64)`: duration in milliseconds. -/
structure Duration where
  millis : Nat
deriving DecidableEq, Repr

/-- `Duration::from_millis`. -/
def Duration.from_millis (m : Nat) : Duration := ⟨m⟩

/-- `Timestamp::from_unix_millis`. -/
def Timestamp.from_unix_millis (m : Nat) : Timestamp := ⟨m⟩

/-- `Timestamp::unix_millis`. -/
def Timestamp.unix_millis (t : Timestamp) : Nat := t.millis

/-- `Timestamp::add`: `Timestamp(self.0.saturating_add(duration.0))`. -/
def Timestamp.add (t : Timestamp) (d : Duration) : Timestamp :=
  ⟨u64SaturatingAdd t.millis d.millis⟩

/-- `Timestamp::sub`: `Timestamp(self.0.saturating_sub(duration.0))`. -/
def Timestamp.sub (t : Timestamp) (d : Duration) : Timestamp :=
  ⟨u64SaturatingSub t.millis d.millis⟩

/-- `Timestamp::diff`: `Duration(self.0.saturating_sub(other.0))`. -/
def Timestamp.diff (t other : Timestamp) : Duration :=
  ⟨u64SaturatingSub t.millis other.millis⟩

/-- The derived `Ord`/`PartialOrd` on the single-field tuple struct
`Timestamp(u64)` compares the wrapped value. -/
instance : LE Timestamp := ⟨fun a b => a.millis ≤ b.millis⟩

instance : LT Timestamp := ⟨fun a b => a.millis < b.millis⟩

theorem Timestamp.le_def (a b : Timestamp) : a ≤ b ↔ a.millis ≤ b.millis :=
  Iff.rfl

theorem Timestamp.lt_def (a b : Timestamp) : a < b ↔ a.millis < b.millis :=
  Iff.rfl

/-- `trait Externalities`: the offchain capability interface. Each Rust
method `fn f(&mut self, args...) -> R` is a field `σ → args → σ × R`
(explicit state passing over a backend state type `σ`); `Vec<u8>`/`&[u8]`
become `List Nat` (bytes), `Result<R, ()>` becomes `Except Unit R`, and
the `&mut [u8]` output buffer of `http_response_read_body` is threaded as
an explicit buffer value returned alongside the `usize` count. -/
structure Externalities (σ : Type) where
  submit_extrinsic : σ → List Nat → σ × Except Unit Unit
  timestamp : σ → σ × Except Unit Nat
  http_request_start : σ → String → String → List Nat → σ × Except Unit HttpRequestId
  http_request_add_header : σ → HttpRequestId → String → String → σ × Except Unit Unit
  http_request_write_body : σ → HttpRequestId → List Nat → Option Timestamp → σ × Except Unit Unit
  http_response_wait : σ → List HttpRequestId → Option Timestamp → σ × List HttpRequestStatus
  http_response_headers : σ → HttpRequestId → σ × List (List Nat × List Nat)
  http_response_read_body : σ → HttpRequestId → List Nat → Option Timestamp → σ × List Nat × Except Unit Nat

/-- `impl<T: Externalities + ?Sized> Externalities for Box<T>`: the owned
heap indirection. A `Box` holds exactly the wrapped backend. -/
structure Box (σ : Type) where
  inner : Externalities σ

/-- The delegating proxy impl: every method body is
`(&mut **self).method(args...)`, i.e. the call is forwarded to the wrapped
implementation with the arguments passed through unchanged. -/
def Box.externalities {σ : Type} (b : Box σ) : Externalities σ where
  submit_extrinsic := fun s ex => b.inner.submit_extrinsic s ex
  timestamp := fun s => b.inner.timestamp s
  http_request_start := fun s method uri meta => b.inner.http_request_start s method uri meta
  http_request_add_header := fun s id name value => b.inner.http_request_add_header s id name value
  http_request_write_body := fun s id chunk deadline => b.inner.http_request_write_body s id chunk deadline
  http_response_wait := fun s ids deadline => b.inner.http_response_wait s ids deadline
  http_response_headers := fun s id => b.inner.http_response_headers s id
  http_response_read_body := fun s id buffer deadline => b.inner.http_response_read_body s id buffer deadline

/-- Modelled from the spec: no concrete host backend implementing
`Externalities::http_response_wait` is under `src/` (the trait only
declares the method and documents its contract; `Box` merely forwards).
Per the spec, a host tracks a status per known request id, the wait
"returns a sequence of statuses with the same length and same order as
the input, one status per id — never an error, never a partial-length
result", and "Ids unknown to the host resolve to `Unknown`". We model
the host by its per-id status table `statusOf` (`none` = id unknown to
the host) and the wait as a positional map over the input ids; the
deadline only influences which terminal status each id has reached by
return time (already folded into `statusOf`), not the shape of the
result. -/
def hostResponseWait (statusOf : HttpRequestId → Option HttpRequestStatus)
    (ids : List HttpRequestId) (_deadline : Option Timestamp) :
    List HttpRequestStatus :=
  ids.map (fun i => (statusOf i).getD HttpRequestStatus.Unknown)

/-- C1: for every 16-bit raw code `c`, `from_u16 c` is `some Unknown` iff
`c = 0`, `some DeadlineReached` iff `c = 10`, `some Timeout` iff `c = 20`,
`some (Finished k)` iff `k = c` and `100 ≤ c ≤ 999`, and `none` exactly on
all remaining codes. -/
theorem from_u16_cases (c : Nat) (h : c < 2 ^ 16) :
    (HttpRequestStatus.from_u16 c = some HttpRequestStatus.Unknown ↔ c = 0) ∧
    (HttpRequestStatus.from_u16 c = some HttpRequestStatus.DeadlineReached ↔ c = 10) ∧
    (HttpRequestStatus.from_u16 c = some HttpRequestStatus.Timeout ↔ c = 20) ∧
    (∀ k : Nat, HttpRequestStatus.from_u16 c = some (HttpRequestStatus.Finished k) ↔
      (k = c ∧ 100 ≤ c ∧ c ≤ 999)) ∧
    (HttpRequestStatus.from_u16 c = none ↔
      ¬(c = 0 ∨ c = 10 ∨ c = 20 ∨ (100 ≤ c ∧ c ≤ 999))) := by
  unfold HttpRequestStatus.from_u16
  split_ifs with h0 h10 h20 hf <;> simp_all <;> omega

/-- C1 witness: the theorem evaluated at the two boundary rejects named in
the claim, `from_u16 99 = none` and `from_u16 1000 = none`. -/
theorem from_u16_cases_witness :
    HttpRequestStatus.from_u16 99 = none ∧ HttpRequestStatus.from_u16 1000 = none :=
  ⟨(from_u16_cases 99 (by decide)).2.2.2.2.mpr (by decide),
   (from_u16_cases 1000 (by decide)).2.2.2.2.mpr (by decide)⟩

/-- C2: the spec-modelled host wait returns one status per input id, with
the same length and the caller's order preserved, and an id the host has
no record of yields `Unknown` at its position instead of aborting the
call (the return type admits no error outcome at all). -/
theorem http_response_wait_shape
    (statusOf : HttpRequestId → Option HttpRequestStatus)
    (ids : List HttpRequestId) (deadline : Option Timestamp) :
    (hostResponseWait statusOf ids deadline).length = ids.length ∧
    (∀ i : Nat, (hostResponseWait statusOf ids deadline)[i]? =
      (ids[i]?).map (fun id => (statusOf id).getD HttpRequestStatus.Unknown)) ∧
    (∀ i : Fin ids.length, statusOf (ids.get i) = none →
      (hostResponseWait statusOf ids deadline)[(i : Nat)]? =
        some HttpRequestStatus.Unknown) := by
  refine ⟨List.length_map _ _, fun i => List.getElem?_map _ _ _, fun i hi => ?_⟩
  simp [hostResponseWait, List.getElem?_map, List.getElem?_eq_getElem i.isLt, hi,
    ← List.get_eq_getElem]

/-- C2 witness: a host that knows no id resolves the single submitted id
to `Unknown` at its position. -/
theorem http_response_wait_shape_witness :
    (hostResponseWait (fun _ => none) [HttpRequestId.mk 1] none)[(0 : Nat)]? =
      some HttpRequestStatus.Unknown :=
  (http_response_wait_shape (fun _ => none) [HttpRequestId.mk 1] none).2.2
    ⟨0, by decide⟩ rfl

/-- C3: every one of the eight operations called on the boxed capability
returns exactly what the wrapped backend returns on the same state and
arguments: the delegating proxy is pure forwarding. -/
theorem box_forwards {σ : Type} (e : Externalities σ) (s : σ)
    (ex : List Nat) (method uri : String) (meta : List Nat)
    (id : HttpRequestId) (hname hvalue : String) (chunk : List Nat)
    (deadline : Option Timestamp) (ids : List HttpRequestId)
    (buffer : List Nat) :
    ((Box.mk e).externalities.submit_extrinsic s ex = e.submit_extrinsic s ex) ∧
    ((Box.mk e).externalities.timestamp s = e.timestamp s) ∧
    ((Box.mk e).externalities.http_request_start s method uri meta =
      e.http_request_start s method uri meta) ∧
    ((Box.mk e).externalities.http_request_add_header s id hname hvalue =
      e.http_request_add_header s id hname hvalue) ∧
    ((Box.mk e).externalities.http_request_write_body s id chunk deadline =
      e.http_request_write_body s id chunk deadline) ∧
    ((Box.mk e).externalities.http_response_wait s ids deadline =
      e.http_response_wait s ids deadline) ∧
    ((Box.mk e).externalities.http_response_headers s id =
      e.http_response_headers s id) ∧
    ((Box.mk e).externalities.http_response_read_body s id buffer deadline =
      e.http_response_read_body s id buffer deadline) :=
  ⟨rfl, rfl, rfl, rfl, rfl, rfl, rfl, rfl⟩

/-- C4: `Timestamp.add` is the saturating sum: its millis equal
`min (t.millis + d.millis) U64_MAX`, hence never exceed `U64_MAX`, and
`Timestamp(5).add(Duration(10)) = Timestamp(15)`. -/
theorem timestamp_add_spec (t : Timestamp) (d : Duration) :
    (t.add d).millis = min (t.millis + d.millis) U64_MAX ∧
    (t.add d).millis ≤ U64_MAX ∧
    Timestamp.add ⟨5⟩ ⟨10⟩ = ⟨15⟩ := by
  obtain ⟨tm⟩ := t; obtain ⟨dm⟩ := d
  simp only [Timestamp.add, u64SaturatingAdd, U64_MAX, Timestamp.mk.injEq]
  refine ⟨?_, ?_, ?_⟩ <;> split_ifs <;> omega

/-- C5: `Timestamp.sub` is the saturating difference: exact when the
duration fits, clamped to zero otherwise, and
`Timestamp(5).sub(Duration(10)) = Timestamp(0)`. -/
theorem timestamp_sub_spec (t : Timestamp) (d : Duration) :
    (d.millis ≤ t.millis → (t.sub d).millis = t.millis - d.millis) ∧
    (t.millis < d.millis → (t.sub d).millis = 0) ∧
    Timestamp.sub ⟨5⟩ ⟨10⟩ = ⟨0⟩ := by
  obtain ⟨tm⟩ := t; obtain ⟨dm⟩ := d
  unfold Timestamp.sub u64SaturatingSub
  refine ⟨?_, ?_, ?_⟩ <;> simp <;> omega

/-- C5 witness: the clamped branch at the claim's concrete case,
`Timestamp(5).sub(Duration(10))` has `0` millis. -/
theorem timestamp_sub_spec_witness :
    (Timestamp.sub ⟨5⟩ ⟨10⟩).millis = 0 :=
  (timestamp_sub_spec ⟨5⟩ ⟨10⟩).2.1 (by decide)

/-- C6: `Timestamp.diff` is the saturating non-negative difference: exact
when `other` is not later, `Duration(0)` when it is, and
`Timestamp(5).diff(Timestamp(3)) = Duration(2)`. -/
theorem timestamp_diff_spec (t u : Timestamp) :
    (u.millis ≤ t.millis → (t.diff u).millis = t.millis - u.millis) ∧
    (t.millis < u.millis → t.diff u = Duration.from_millis 0) ∧
    Timestamp.diff ⟨5⟩ ⟨3⟩ = ⟨2⟩ := by
  obtain ⟨tm⟩ := t; obtain ⟨um⟩ := u
  unfold Timestamp.diff u64SaturatingSub Duration.from_millis
  refine ⟨?_, ?_, ?_⟩ <;> simp <;> omega

/-- C6 witness: the exact branch at the claim's concrete case,
`Timestamp(5).diff(Timestamp(3))` has `5 - 3` millis. -/
theorem timestamp_diff_spec_witness :
    (Timestamp.diff ⟨5⟩ ⟨3⟩).millis = 5 - 3 :=
  (timestamp_diff_spec ⟨5⟩ ⟨3⟩).1 (by decide)

/-- C7: under the derived order on `Timestamp`, saturating addition never
moves a (representable) timestamp backwards and saturating subtraction
never moves it forwards. -/
theorem timestamp_add_ge_sub_le (t : Timestamp) (d : Duration)
    (h : t.millis ≤ U64_MAX) :
    t ≤ t.add d ∧ t.sub d ≤ t := by
  obtain ⟨tm⟩ := t; obtain ⟨dm⟩ := d
  simp only [Timestamp.le_def, Timestamp.add, Timestamp.sub, u64SaturatingAdd,
    u64SaturatingSub, U64_MAX] at h ⊢
  constructor <;> split_ifs <;> omega

/-- C7 witness: the theorem at `Timestamp(5)`, `Duration(10)`. -/
theorem timestamp_add_ge_sub_le_witness :
    (⟨5⟩ : Timestamp) ≤ Timestamp.add ⟨5⟩ ⟨10⟩ ∧
      Timestamp.sub ⟨5⟩ ⟨10⟩ ≤ (⟨5⟩ : Timestamp) :=
  timestamp_add_ge_sub_le ⟨5⟩ ⟨10⟩ (by decide)

/-- C8: constructing a `Duration` from a raw millisecond count and reading
the count back is a lossless round trip. -/
theorem duration_from_millis_roundtrip (m : Nat) :
    (Duration.from_millis m).millis = m := rfl

/-- C9 counterexample: the claim asserts some representable `t`, `d` with
`t.add(d).sub(d) > t`; no such pair exists. -/
theorem addsub_overshoot_refuted :
    ¬ ∃ (t : Timestamp) (d : Duration),
      t.millis ≤ U64_MAX ∧ d.millis ≤ U64_MAX ∧ t < (t.add d).sub d := by
  rintro ⟨⟨tm⟩, ⟨dm⟩, ht, hd, hlt⟩
  rw [Timestamp.lt_def] at hlt
  unfold Timestamp.add Timestamp.sub u64SaturatingAdd u64SaturatingSub at hlt
  unfold U64_MAX at ht hd hlt
  simp at hlt
  split_ifs at hlt <;> omega

/-- C9 amended: for every representable `t` and `d`,
`t.add(d).sub(d) ≤ t` in fact always holds. -/
theorem addsub_le (t : Timestamp) (d : Duration)
    (ht : t.millis ≤ U64_MAX) (hd : d.millis ≤ U64_MAX) :
    (t.add d).sub d ≤ t := by
  obtain ⟨tm⟩ := t; obtain ⟨dm⟩ := d
  simp only [Timestamp.le_def, Timestamp.add, Timestamp.sub, u64SaturatingAdd,
    u64SaturatingSub, U64_MAX] at ht hd ⊢
  split_ifs <;> omega

/-- C9 amended witness: the amended theorem at `Timestamp(5)`,
`Duration(10)`. -/
theorem addsub_le_witness :
    (Timestamp.add ⟨5⟩ ⟨10⟩).sub ⟨10⟩ ≤ (⟨5⟩ : Timestamp) :=
  addsub_le ⟨5⟩ ⟨10⟩ (by decide) (by decide)

/-- C10: for representable `t` and `d`, `t.add(d).sub(d) ≤ t`, with
equality exactly when `t.millis + d.millis` does not exceed `U64_MAX`;
when the addition saturates, the round trip lands strictly below `t`, by
exactly the overflow amount `t.millis + d.millis - U64_MAX`. -/
theorem addsub_roundtrip (t : Timestamp) (d : Duration)
    (ht : t.millis ≤ U64_MAX) (hd : d.millis ≤ U64_MAX) :
    (t.add d).sub d ≤ t ∧
    ((t.add d).sub d = t ↔ t.millis + d.millis ≤ U64_MAX) ∧
    (U64_MAX < t.millis + d.millis →
      (t.add d).sub d < t ∧
      ((t.add d).sub d).millis = t.millis - (t.millis + d.millis - U64_MAX)) := by
  obtain ⟨tm⟩ := t; obtain ⟨dm⟩ := d
  rw [Timestamp.le_def]
  unfold Timestamp.add Timestamp.sub u64SaturatingAdd u64SaturatingSub
  unfold U64_MAX at *
  simp only [Timestamp.mk.injEq, Timestamp.lt_def]
  split_ifs <;> simp_all <;> omega

/-- C10 witness: the non-saturating branch at `Timestamp(5)`,
`Duration(10)`: the round trip returns exactly `Timestamp(5)`. -/
theorem addsub_roundtrip_witness :
    (Timestamp.add ⟨5⟩ ⟨10⟩).sub ⟨10⟩ = (⟨5⟩ : Timestamp) :=
  ((addsub_roundtrip ⟨5⟩ ⟨10⟩ (by decide) (by decide)).2.1).mpr (by decide)
